import Mathlib

/-
Shallow embedding of the make_ssh_config repository
(src/make_ssh_config/__main__.py and src/make_ssh_config/util.py).

Python values flowing through the program (YAML scalars, lists, string-keyed
mappings) are modelled by the inductive type Value.  Python dicts are modelled
by association lists that keep insertion order and replace values in place,
which is exactly the observable behaviour of CPython dicts.  Exceptions are
modelled with Except over a structured error type Err whose constructors
correspond one-to-one to the raise sites of the source (the Python exception
class and message text are recorded in comments at each site).
-/

/-- Generic YAML-like value processed by the program: None, bool, int, str,
list, or string-keyed mapping (floats do not occur in any analysed path). -/
inductive Value where
  | null
  | bool (b : Bool)
  | int (n : Int)
  | str (s : String)
  | list (xs : List Value)
  | map (xs : List (String × Value))

/-- Errors raised by the embedded code.  Each constructor corresponds to one
raise site of the source; engine errors model failures inside the external
Jinja templating capability. -/
inductive Err where
  | invalidAttr (k : String)      -- ValueError: Invalid layer attribute {k}
  | unknownMatchKey (k : String)  -- ValueError: Unknown match key {k}
  | bothHostMatch                 -- ValueError: Specifying both host and match is prohibited
  | undefinedRecord (n : String)  -- ValueError: Undefined record {n}
  | keyError (k : String)         -- KeyError: {k}  (CIDict.pop with no default)
  | allTokenMisplaced             -- ValueError: The all token must be alone or immediately after canonical
  | doubleQuote (s : String)      -- ValueError: Double quote character in {s}
  | typeError (s : String)        -- TypeError (non-iterable input, bad update argument, unhashable key, ...)
  | attributeError (s : String)   -- AttributeError (mapping method called on a non-mapping)
  | templateError (s : String)    -- errors of the external template engine
deriving DecidableEq

/-- Python truthiness of a Value, as used by `if value:` in the source. -/
def Value.truthy : Value → Bool
  | .null => false
  | .bool b => b
  | .int n => n != 0
  | .str s => s != ""
  | .list xs => !xs.isEmpty
  | .map xs => !xs.isEmpty

/-- Python `value is None`. -/
def Value.isNull : Value → Bool
  | .null => true
  | _ => false

/-- ASCII case folding of one character; models Python str.casefold on the
character range used by SSH option names. -/
def foldChar (c : Char) : Char :=
  if 'A' ≤ c && c ≤ 'Z' then Char.ofNat (c.toNat + 32) else c

/-- Models Python str.casefold (the source only folds ASCII option names). -/
def casefold (s : String) : String :=
  String.mk (s.data.map foldChar)

/-- Python str.isspace for the whitespace characters recognised by str.split. -/
def isPySpace (c : Char) : Bool :=
  c = ' ' || c = '\t' || c = '\n' || c = '\r' || c = '\x0b' || c = '\x0c'

/-- Helper for pySplit: accumulates the current word in reverse. -/
def splitWsChars : List Char → List Char → List String
  | [], acc => if acc.isEmpty then [] else [String.mk acc.reverse]
  | c :: cs, acc =>
    if isPySpace c then
      if acc.isEmpty then splitWsChars cs []
      else String.mk acc.reverse :: splitWsChars cs []
    else splitWsChars cs (c :: acc)

/-- Models Python str.split with no argument: split on whitespace runs,
dropping leading and trailing whitespace. -/
def pySplit (s : String) : List String :=
  splitWsChars s.data []

/-
CIDict (src/make_ssh_config/util.py, class CIDict): a case-insensitive dict
built on a Python dict from casefolded key to (original key, value) pairs.
The backing dict is modelled as an insertion-ordered association list with
entries (foldedKey, originalKey, value).
-/

/-- The CIDict of util.py: _data maps casefolded key to the pair of the
original key and the value, in insertion order. -/
structure CIDict where
  data : List (String × String × Value)

/-- Python dict assignment on the backing store: replace in place if the
folded key is present (CPython keeps the position), else append. -/
def setEntry : List (String × String × Value) → String → String → Value → List (String × String × Value)
  | [], f, k, v => [(f, k, v)]
  | e :: rest, f, k, v =>
    if e.1 = f then (f, k, v) :: rest else e :: setEntry rest f k v

/-- Empty CIDict. -/
def CIDict.empty : CIDict := ⟨[]⟩

/-- CIDict.__setitem__: self._data[key.casefold()] = (key, value). -/
def CIDict.set (d : CIDict) (k : String) (v : Value) : CIDict :=
  ⟨setEntry d.data (casefold k) k v⟩

/-- CIDict.__getitem__ as an Option: self._data[key.casefold()][1]. -/
def CIDict.get (d : CIDict) (k : String) : Option Value :=
  (d.data.find? (fun e => e.1 = casefold k)).map (fun e => e.2.2)

/-- CIDict.__iter__: the original-casing keys, in insertion order. -/
def CIDict.keys (d : CIDict) : List String :=
  d.data.map (fun e => e.2.1)

/-- The (original key, value) pairs yielded by CIDict.items(). -/
def CIDict.items (d : CIDict) : List (String × Value) :=
  d.data.map (fun e => e.2)

/-- The casefolded keys of the backing dict, in insertion order. -/
def CIDict.foldedKeys (d : CIDict) : List String :=
  d.data.map (fun e => e.1)

/-- Whether the backing dict has an entry at the given raw key. -/
def CIDict.hasRawKey (d : CIDict) (k : String) : Bool :=
  d.data.any (fun e => e.1 = k)

/-- Removes the first backing entry whose folded key equals k. -/
def removeEntry : List (String × String × Value) → String → List (String × String × Value)
  | [], _ => []
  | e :: rest, k => if e.1 = k then rest else e :: removeEntry rest k

/-- CIDict.pop with no default, as called by merge_config: pair =
self._data.pop(key, None) looks the RAW key up in the folded-key dict (the
source does not casefold here), and a missing key raises KeyError(key). -/
def CIDict.popNoDefault (d : CIDict) (k : String) : Except Err CIDict :=
  if d.hasRawKey k then .ok ⟨removeEntry d.data k⟩
  else .error (.keyError k)

/-
merge_config (__main__.py lines 39-57).  Both arguments are mappings consumed
through .items(); they are passed here as their item lists.
-/

/-- First loop of merge_config: copy the non-None entries of a into o. -/
def mergeBase : CIDict → List (String × Value) → CIDict
  | o, [] => o
  | o, (k, v) :: rest =>
    if v.isNull then mergeBase o rest else mergeBase (o.set k v) rest

/-- Second loop of merge_config: a None value pops the key (via
CIDict.popNoDefault, which can raise KeyError), otherwise the key is set. -/
def mergeOverlay : CIDict → List (String × Value) → Except Err CIDict
  | o, [] => .ok o
  | o, (k, v) :: rest =>
    if v.isNull then do
      let o2 ← o.popNoDefault k
      mergeOverlay o2 rest
    else mergeOverlay (o.set k v) rest

/-- merge_config(a, b): merge two str-keyed mappings, given as item lists. -/
def merge_config (a b : List (String × Value)) : Except Err CIDict :=
  mergeOverlay (mergeBase CIDict.empty a) b

/-- maybe_quote (__main__.py lines 148-162): quote the SSH option value if it
splits into two or more whitespace-delimited parts; raise on a double quote
character only in that case. -/
def maybe_quote (s : String) : Except Err String :=
  let parts := pySplit s
  if parts.length < 2 then .ok s
  else if s.data.contains '"' then .error (.doubleQuote s)
  else .ok ("\"" ++ s ++ "\"")

/-
MatchDict (__main__.py lines 64-71) and Layer.header_line (lines 99-135).
The exec entry is kept as a raw Value because normalize_match passes it
through unchanged.
-/

/-- The MatchDict TypedDict, fields in declaration order. -/
structure MatchDict where
  all : Bool
  canonical : Bool
  host : List String
  originalhost : List String
  user : List String
  localuser : List String
  exec : Value

/-- The match branch of Layer.header_line: validity check, then the token
list in source order.  A truthy non-string exec would make the Python
str.join call raise TypeError, modelled by the typeError case. -/
def headerLineOfMatch (m : MatchDict) : Except Err String :=
  if m.all && (m.canonical || m.exec.truthy || !m.host.isEmpty
      || !m.originalhost.isEmpty || !m.user.isEmpty || !m.localuser.isEmpty) then
    .error .allTokenMisplaced
  else
    let args : List String :=
      (if m.canonical then ["canonical"] else [])
      ++ (if m.all then ["all"] else [])
      ++ (if !m.host.isEmpty then ["host", String.intercalate "," m.host] else [])
      ++ (if !m.originalhost.isEmpty then ["originalhost", String.intercalate "," m.originalhost] else [])
      ++ (if !m.user.isEmpty then ["user", String.intercalate "," m.user] else [])
      ++ (if !m.localuser.isEmpty then ["localuser", String.intercalate "," m.localuser] else [])
    if m.exec.truthy then
      match m.exec with
      | .str s => .ok ("Match " ++ String.intercalate " " (args ++ ["exec", s]) ++ "\n")
      | _ => .error (.typeError "sequence item in join is not a str")
    else
      .ok ("Match " ++ String.intercalate " " args ++ "\n")

/-
yaml_str_list (__main__.py lines 22-36): flatten None, str, and nested lists
to a list of str.  Iterating a dict in Python yields its keys; iterating a
bool or int raises TypeError.
-/

mutual

/-- yaml_str_list: convert and flatten input to a list of str. -/
def yaml_str_list : Value → Except Err (List String)
  | .null => .ok []
  | .str s => .ok [s]
  | .list xs => yamlStrListMany xs
  | .map xs => .ok (xs.map Prod.fst)
  | .bool _ => .error (.typeError "bool object is not iterable")
  | .int _ => .error (.typeError "int object is not iterable")

/-- Flattening of yaml_str_list over the elements of a list. -/
def yamlStrListMany : List Value → Except Err (List String)
  | [] => .ok []
  | x :: xs => do
    let a ← yaml_str_list x
    let b ← yamlStrListMany xs
    .ok (a ++ b)

end

/-- Python dict .get with default None on a string-keyed mapping (first
occurrence wins; genuine Python dicts have unique keys). -/
def vGet (m : List (String × Value)) (k : String) : Value :=
  ((m.find? (fun e => e.1 = k)).map Prod.snd).getD .null

/-- Python dict assignment on a plain str-keyed dict: replace in place if
present, else append. -/
def dictSet (m : List (String × Value)) (k : String) (v : Value) : List (String × Value) :=
  match m with
  | [] => [(k, v)]
  | e :: rest => if e.1 = k then (k, v) :: rest else e :: dictSet rest k v

/-- Python dict.update with a mapping argument: set every pair in order. -/
def dictUpdate (m : List (String × Value)) (src : List (String × Value)) : List (String × Value) :=
  src.foldl (fun acc e => dictSet acc e.1 e.2) m

/-- normalize_match (__main__.py lines 171-188) on an already checked
mapping: coerce the fields.  Factored out because the bad-key test is
shared between the found-empty-key case and the no-bad-key case. -/
def normalizeMatchFields (m : List (String × Value)) : Except Err MatchDict := do
  let host ← yaml_str_list (vGet m "host")
  let originalhost ← yaml_str_list (vGet m "originalhost")
  let user ← yaml_str_list (vGet m "user")
  let localuser ← yaml_str_list (vGet m "localuser")
  .ok {
    all := (vGet m "all").truthy
    canonical := (vGet m "canonical").truthy
    host := host
    originalhost := originalhost
    user := user
    localuser := localuser
    exec := vGet m "exec"
  }

/-- The valid match keys, in source order. -/
def matchValidKeys : List String :=
  ["all", "canonical", "exec", "host", "originalhost", "user", "localuser"]

/-- normalize_match: reject an unknown match key, then coerce.  The source
tests the offending key with `if bad_key:`, so a falsy (empty string) bad
key slips through; .keys() on a non-mapping raises AttributeError. -/
def normalize_match : Value → Except Err MatchDict
  | .map m =>
    match (m.map Prod.fst).find? (fun k => !(matchValidKeys.contains k)) with
    | some k => if k = "" then normalizeMatchFields m else .error (.unknownMatchKey k)
    | none => normalizeMatchFields m
  | _ => .error (.attributeError "object has no attribute keys")

/-
Layer (__main__.py lines 74-145).  The Python attribute named match is
called matchSpec here because match is a Lean keyword.
-/

/-- The Layer dataclass: config, vars, host, match. -/
structure Layer where
  config : CIDict
  vars : List (String × Value)
  host : Option (List String)
  matchSpec : Option MatchDict

/-- Layer.header_line: the Host branch, the Match branch, or — when neither
selector is set — the implicit Python fall-through returning None, modelled
as ok none. -/
def Layer.header_line (L : Layer) : Except Err (Option String) :=
  match L.host with
  | some h => .ok (some ("Host " ++ String.intercalate " " h ++ "\n"))
  | none =>
    match L.matchSpec with
    | some m => (headerLineOfMatch m).map some
    | none => .ok none

/-
The template renderer (__main__.py lines 210-253).  The external Jinja
capability (compile_expression / from_string + render, including the
expression-to-template fallback) is abstracted as an Engine, exactly as the
spec treats it.  The identity memo of render_value only caches results for
structurally shared nodes and is semantically transparent on the acyclic
values modelled here, so it is not reproduced.
-/

/-- The external templating capability: evaluate a source string against a
string-keyed context. -/
def Engine : Type :=
  String → List (String × Value) → Except Err Value

/-- An engine for concrete runs: every string renders to itself, which is
the behaviour of the real engine on marker-free strings. -/
def idEngine : Engine :=
  fun s _ => .ok (.str s)

mutual

/-- render_value: strings go to the engine, lists and mappings are rendered
recursively, None, bool, and int are returned unchanged. -/
def renderValue (engine : Engine) (ctx : List (String × Value)) : Value → Except Err Value
  | .str s => engine s ctx
  | .list xs => do
    let ys ← renderValueList engine ctx xs
    .ok (.list ys)
  | .map xs => do
    let ys ← renderValueMap engine ctx xs
    .ok (.map ys)
  | .null => .ok .null
  | .bool b => .ok (.bool b)
  | .int n => .ok (.int n)

/-- render_value over a list node, preserving order. -/
def renderValueList (engine : Engine) (ctx : List (String × Value)) : List Value → Except Err (List Value)
  | [] => .ok []
  | x :: xs => do
    let y ← renderValue engine ctx x
    let ys ← renderValueList engine ctx xs
    .ok (y :: ys)

/-- render_value over a mapping node, preserving keys and order. -/
def renderValueMap (engine : Engine) (ctx : List (String × Value)) : List (String × Value) → Except Err (List (String × Value))
  | [] => .ok []
  | (k, v) :: xs => do
    let w ← renderValue engine ctx v
    let ys ← renderValueMap engine ctx xs
    .ok ((k, w) :: ys)

end

/-
ConfigMaker (__main__.py lines 191-323).  The registry is a Python dict
whose keys are the raw name values (usually strings); the entries list is
the emission sequence.
-/

/-- Python equality on the hashable Value shapes, as used for dict keys
(Python bools compare equal to the corresponding ints). -/
def pyKeyEq : Value → Value → Bool
  | .str a, .str b => a = b
  | .int a, .int b => a = b
  | .bool a, .bool b => a = b
  | .bool a, .int b => (if a then (1 : Int) else 0) = b
  | .int a, .bool b => a = (if b then (1 : Int) else 0)
  | .null, .null => true
  | _, _ => false

/-- Registry lookup by a string name, as done for merge references. -/
def regGet (reg : List (Value × Layer)) (n : String) : Option Layer :=
  ((reg.find? (fun e => pyKeyEq e.1 (.str n))).map Prod.snd)

/-- Python dict assignment on the registry: replacing keeps the position
and the originally stored key object. -/
def regSet : List (Value × Layer) → Value → Layer → List (Value × Layer)
  | [], n, L => [(n, L)]
  | e :: rest, n, L => if pyKeyEq e.1 n then (e.1, L) :: rest else e :: regSet rest n L

/-- The mutable state of ConfigMaker: registry and emission sequence. -/
structure MakerState where
  registry : List (Value × Layer)
  entries : List Layer

/-- The valid top-level record keys (lines 198-205). -/
def recordValidKeys : List String :=
  ["config", "host", "match", "merge", "name", "vars"]

/-- ConfigMaker._check_record_keys: the first key outside the valid set is
rejected, but through `if bad_key:`, so a falsy (empty string) first bad key
passes the check. -/
def check_record_keys (record : List (String × Value)) : Except Err Unit :=
  match (record.map Prod.fst).find? (fun k => !(recordValidKeys.contains k)) with
  | some k => if k = "" then .ok () else .error (.invalidAttr k)
  | none => .ok ()

/-- The merge-resolution loop of add_record (lines 265-272): look each name
up in the registry (missing name raises), fold configs through merge_config
and vars through dict.update, later names winning. -/
def resolveMergeLoop (reg : List (Value × Layer)) :
    List String → CIDict → List (String × Value) → Except Err (CIDict × List (String × Value))
  | [], cfg, vars => .ok (cfg, vars)
  | n :: ns, cfg, vars =>
    match regGet reg n with
    | none => .error (.undefinedRecord n)
    | some L => do
      let cfg2 ← merge_config cfg.items L.config.items
      resolveMergeLoop reg ns cfg2 (dictUpdate vars L.vars)

/-- The vars step of add_record (lines 274-278): when the declared vars are
truthy, render them against the accumulated vars plus name and dict.update
the result in; dict.update demands a mapping. -/
def varsStage (engine : Engine) (mergedVars : List (String × Value)) (name rawVars : Value) :
    Except Err (List (String × Value)) :=
  if rawVars.truthy then do
    let rendered ← renderValue engine (dictSet mergedVars "name" name) rawVars
    match rendered with
    | .map xs => .ok (dictUpdate mergedVars xs)
    | _ => .error (.typeError "update argument is not a mapping")
  else .ok mergedVars

/-- The selector step of add_record (lines 282-299): both selectors at once
is prohibited; a host is rendered then flattened to a string list; a match
is rendered then normalized. -/
def selectorStage (engine : Engine) (mergedVars : List (String × Value)) (name rawHost rawMatch : Value) :
    Except Err (Option (List String) × Option MatchDict) :=
  if !rawHost.isNull then
    if !rawMatch.isNull then .error .bothHostMatch
    else do
      let rendered ← renderValue engine (dictSet mergedVars "name" name) rawHost
      let h ← yaml_str_list rendered
      .ok (some h, none)
  else if !rawMatch.isNull then do
    let rendered ← renderValue engine (dictSet mergedVars "name" name) rawMatch
    let m ← normalize_match rendered
    .ok (none, some m)
  else .ok (none, none)

/-- The value bound to host in the config rendering context. -/
def hostCtxValue : Option (List String) → Value
  | none => .null
  | some h => .list (h.map Value.str)

/-- The value bound to match in the config rendering context: the MatchDict
as the dict built by normalize_match, fields in construction order. -/
def matchCtxValue : Option MatchDict → Value
  | none => .null
  | some m => .map [
      ("all", .bool m.all), ("canonical", .bool m.canonical),
      ("host", .list (m.host.map Value.str)),
      ("originalhost", .list (m.originalhost.map Value.str)),
      ("user", .list (m.user.map Value.str)),
      ("localuser", .list (m.localuser.map Value.str)),
      ("exec", m.exec)]

/-- The config step of add_record (lines 301-310): when the declared config
is truthy, render it against vars plus name, host, and match, then fold it
over the accumulated config with merge_config; merge_config iterates the
overlay with .items(), so a non-mapping rendered config raises. -/
def configStage (engine : Engine) (mergedConfig : CIDict) (mergedVars : List (String × Value))
    (name : Value) (host : Option (List String)) (mtch : Option MatchDict) (rawConfig : Value) :
    Except Err CIDict :=
  if rawConfig.truthy then do
    let ctx := dictSet (dictSet (dictSet mergedVars "name" name) "host" (hostCtxValue host))
      "match" (matchCtxValue mtch)
    let config ← renderValue engine ctx rawConfig
    match config with
    | .map xs => merge_config mergedConfig.items xs
    | _ => .error (.attributeError "object has no attribute items")
  else .ok mergedConfig

/-- Lines 255-317 of add_record: everything up to and including the Layer
construction.  Returns the layer together with the raw name value.  The
subsequent isinstance list check on the host is dead code because
yaml_str_list always returns a list, and the Layer post-init check cannot
fire because the selector stage never returns two selectors. -/
def resolveLayer (engine : Engine) (st : MakerState) (record : List (String × Value)) :
    Except Err (Layer × Value) := do
  check_record_keys record
  let name := vGet record "name"
  let mergeRaw := vGet record "merge"
  let rawVars := vGet record "vars"
  let mergeNames ← yaml_str_list mergeRaw
  let (mergedConfig, mergedVars) ← resolveMergeLoop st.registry mergeNames CIDict.empty []
  let mergedVars ← varsStage engine mergedVars name rawVars
  let rawConfig := vGet record "config"
  let rawHost := vGet record "host"
  let rawMatch := vGet record "match"
  let (host, mtch) ← selectorStage engine mergedVars name rawHost rawMatch
  let mergedConfig ← configStage engine mergedConfig mergedVars name host mtch rawConfig
  .ok (⟨mergedConfig, mergedVars, host, mtch⟩, name)

/-- The emission test of line 322, `if host or match:` in Python truthiness:
the host list must be non-empty, while a MatchDict is a seven-key dict and
therefore always truthy. -/
def emitSelector (L : Layer) : Bool :=
  (match L.host with
   | some h => !h.isEmpty
   | none => false) ||
  (match L.matchSpec with
   | some _ => true
   | none => false)

/-- Lines 319-323 of add_record: registration under a truthy name (an
unhashable name would raise TypeError in Python) and conditional emission. -/
def add_record (engine : Engine) (st : MakerState) (record : List (String × Value)) :
    Except Err MakerState := do
  let (layer, name) ← resolveLayer engine st record
  let registry ← if name.truthy then
      match name with
      | .list _ => .error (.typeError "unhashable type list")
      | .map _ => .error (.typeError "unhashable type dict")
      | _ => .ok (regSet st.registry name layer)
    else .ok st.registry
  .ok ⟨registry, if emitSelector layer then st.entries ++ [layer] else st.entries⟩

/-- The main loop (lines 342-343): feed the records to add_record in order. -/
def processRecords (engine : Engine) : MakerState → List (List (String × Value)) → Except Err MakerState
  | st, [] => .ok st
  | st, r :: rs => do
    let st2 ← add_record engine st r
    processRecords engine st2 rs

/-- Specification-side view of a run: the layer each record resolves to, in
order, independently of whether it is emitted. -/
def resolvedLayers (engine : Engine) : MakerState → List (List (String × Value)) → Except Err (List Layer)
  | _, [] => .ok []
  | st, r :: rs => do
    let (layer, _) ← resolveLayer engine st r
    let st2 ← add_record engine st r
    let rest ← resolvedLayers engine st2 rs
    .ok (layer :: rest)

/-- Specification-side token list for a Match header, written from the words
of the spec: canonical, then all, then host, originalhost, user, localuser
with comma-joined non-empty lists, then exec with its non-empty string
value.  Compared against headerLineOfMatch in the C7 theorem. -/
def specMatchTokens (m : MatchDict) : List String :=
  (if m.canonical then ["canonical"] else [])
  ++ (if m.all then ["all"] else [])
  ++ (if m.host ≠ [] then ["host", String.intercalate "," m.host] else [])
  ++ (if m.originalhost ≠ [] then ["originalhost", String.intercalate "," m.originalhost] else [])
  ++ (if m.user ≠ [] then ["user", String.intercalate "," m.user] else [])
  ++ (if m.localuser ≠ [] then ["localuser", String.intercalate "," m.localuser] else [])
  ++ (match m.exec with
      | .str s => if s ≠ "" then ["exec", s] else []
      | _ => [])

/-
Theorems.  Each claim of the specification is settled below; helper lemmas
carry no claim name.
-/

/-- C1: the claim says merge({A:1,B:2}, {B:null,C:3}) = {A:1,C:3}, deleting
case-insensitively with no error on an absent key.  The code instead raises:
CIDict.pop looks up the raw key in the casefolded backing dict and
merge_config passes no default, so the null overlay entry B raises
KeyError(B); even an already-casefolded absent key raises. -/
theorem c1_merge_delete_keyerror :
    merge_config [("A", .int 1), ("B", .int 2)] [("B", .null), ("C", .int 3)]
      = .error (.keyError "B")
    ∧ merge_config [] [("a", .null)] = .error (.keyError "a") :=
  ⟨rfl, rfl⟩

/-- C2: the claim (and the raise message of the code itself) says the match
specification with canonical true and all true serializes to the header
Match canonical all.  The guard of header_line also tests canonical, so this
specification raises instead. -/
theorem c2_canonical_all_raises :
    headerLineOfMatch ⟨true, true, [], [], [], [], .null⟩ = .error .allTokenMisplaced :=
  rfl

/-- C6 counterexample: the claim says a value containing a double quote
raises; a single-token value containing a double quote is returned
unchanged, because maybe_quote returns before the quote test when the value
splits into fewer than two parts. -/
theorem c6_quote_cex : maybe_quote "a\"b" = .ok "a\"b" := rfl

/-- C6 amended: a value with fewer than two whitespace-delimited tokens is
returned unchanged (even if it contains a double quote); a value with two or
more tokens raises if it contains a double quote and is wrapped in double
quotes otherwise. -/
theorem c6_maybe_quote_amended (s : String) :
    ((pySplit s).length < 2 → maybe_quote s = .ok s) ∧
    (2 ≤ (pySplit s).length → s.data.contains '"' = true →
      maybe_quote s = .error (.doubleQuote s)) ∧
    (2 ≤ (pySplit s).length → s.data.contains '"' = false →
      maybe_quote s = .ok ("\"" ++ s ++ "\"")) := by
  refine ⟨fun h => ?_, fun h hq => ?_, fun h hq => ?_⟩
  · simp [maybe_quote, h]
  · simp [maybe_quote, Nat.not_lt.mpr h]
    simpa using hq
  · simp [maybe_quote, Nat.not_lt.mpr h]
    simpa using hq

/-- C6 witness: the amended theorem applied to the spec examples a b and ab. -/
theorem c6_maybe_quote_amended_witness :
    maybe_quote "a b" = .ok "\"a b\"" ∧ maybe_quote "ab" = .ok "ab" :=
  ⟨(c6_maybe_quote_amended "a b").2.2 (by decide) (by decide),
   (c6_maybe_quote_amended "ab").1 (by decide)⟩

/-- Helper: after setEntry, the backing entry at the folded key holds the
newly given original key and value. -/
theorem setEntry_find_self (l : List (String × String × Value)) (f k : String) (v : Value) :
    (setEntry l f k v).find? (fun e => e.1 = f) = some (f, k, v) := by
  induction l with
  | nil => simp [setEntry]
  | cons e rest ih =>
    by_cases h : e.1 = f
    · simp [setEntry, h]
    · simp [setEntry, h, ih]

/-- Helper: setEntry keeps the folded-key sequence when the key is present
(replacement in place) and appends the key at the end otherwise. -/
theorem setEntry_map_fst (l : List (String × String × Value)) (f k : String) (v : Value) :
    (setEntry l f k v).map (fun e => e.1) =
      if l.any (fun e => e.1 = f) then l.map (fun e => e.1)
      else l.map (fun e => e.1) ++ [f] := by
  induction l with
  | nil => simp [setEntry]
  | cons e rest ih =>
    by_cases h : e.1 = f
    · simp [setEntry, h]
    · by_cases h2 : rest.any (fun e => e.1 = f) <;> simp [setEntry, h, h2, ih]

/-- C3 counterexample: the claim says the casing of the first insertion is
reported; after setting Foo then FOO the reported key is FOO, the casing of
the most recent insertion. -/
theorem c3_first_casing_cex :
    ((CIDict.empty.set "Foo" (.int 1)).set "FOO" (.int 2)).keys = ["FOO"]
    ∧ ("FOO" : String) ≠ "Foo" :=
  ⟨rfl, by decide⟩

/-- C3 amended: two keys with the same casefolding are the same entry
(setting one and reading the other yields the set value); the sequence of
casefolded keys is kept in place on re-insertion and extended at the end on
first insertion; and the original-casing key stored for the entry is the one
of the MOST RECENT insertion (not the first, as claimed). -/
theorem c3_cidict_amended (d : CIDict) (k k2 : String) (v : Value)
    (h : casefold k = casefold k2) :
    ((d.set k v).get k2 = some v)
    ∧ ((d.set k v).foldedKeys =
        if d.hasRawKey (casefold k) then d.foldedKeys else d.foldedKeys ++ [casefold k])
    ∧ (((d.set k v).data.find? (fun e => e.1 = casefold k)).map (fun e => e.2.1) = some k) := by
  refine ⟨?_, ?_, ?_⟩
  · rw [CIDict.get, CIDict.set, ← h, setEntry_find_self]
    rfl
  · rw [CIDict.foldedKeys, CIDict.set, setEntry_map_fst, CIDict.hasRawKey]
    rfl
  · rw [CIDict.set, setEntry_find_self]
    rfl

/-- C3 witness: the amended theorem applied to the empty dict with the keys
Foo and fOO. -/
theorem c3_cidict_amended_witness :
    ((CIDict.empty.set "Foo" (.int 1)).get "fOO" = some (.int 1))
    ∧ ((CIDict.empty.set "Foo" (.int 1)).foldedKeys =
        if CIDict.empty.hasRawKey (casefold "Foo") then CIDict.empty.foldedKeys
        else CIDict.empty.foldedKeys ++ [casefold "Foo"])
    ∧ (((CIDict.empty.set "Foo" (.int 1)).data.find?
        (fun e => e.1 = casefold "Foo")).map (fun e => e.2.1) = some "Foo") :=
  c3_cidict_amended CIDict.empty "Foo" "fOO" (.int 1) (by decide)

/-- C7 counterexample: the claim says the exec token is emitted whenever
exec is present; an exec that is present but empty is skipped, because the
code tests truthiness. -/
theorem c7_exec_empty_cex :
    headerLineOfMatch ⟨false, false, ["h"], [], [], [], .str ""⟩ = .ok "Match host h\n" :=
  rfl

/-- Helper: a Bool emptiness test in an if matches the propositional one. -/
theorem ite_not_isEmpty {α : Type} (l : List String) (a b : α) :
    (if (!l.isEmpty) = true then a else b) = if l ≠ [] then a else b := by
  cases l <;> simp

/-- C7 amended: for every match specification the serializer accepts (the
all guard does not fire, and a truthy exec is a string), the header is Match
followed by the space-joined tokens in the fixed source order, with the exec
token present exactly when exec is a non-empty string (not merely present,
as claimed). -/
theorem c7_header_order_amended (m : MatchDict)
    (hOK : (m.all && (m.canonical || m.exec.truthy || !m.host.isEmpty
      || !m.originalhost.isEmpty || !m.user.isEmpty || !m.localuser.isEmpty)) = false)
    (hExec : m.exec.truthy = true → ∃ s, m.exec = Value.str s) :
    headerLineOfMatch m = .ok ("Match " ++ String.intercalate " " (specMatchTokens m) ++ "\n") := by
  simp only [headerLineOfMatch, hOK, Bool.false_eq_true, if_false, specMatchTokens,
    ite_not_isEmpty]
  cases hex : m.exec with
  | str s =>
    by_cases hs : s = ""
    · simp [Value.truthy, hs]
    · simp [Value.truthy, hs]
  | null => simp [Value.truthy]
  | bool b =>
    cases b
    · simp [Value.truthy]
    · obtain ⟨s, hs⟩ := hExec (by simp [hex, Value.truthy])
      rw [hex] at hs
      cases hs
  | int n =>
    by_cases hn : n = 0
    · simp [Value.truthy, hn]
    · obtain ⟨s, hs⟩ := hExec (by simp [hex, Value.truthy, hn])
      rw [hex] at hs
      cases hs
  | list xs =>
    cases xs with
    | nil => simp [Value.truthy]
    | cons y ys =>
      obtain ⟨s, hs⟩ := hExec (by simp [hex, Value.truthy])
      rw [hex] at hs
      cases hs
  | map xs =>
    cases xs with
    | nil => simp [Value.truthy]
    | cons y ys =>
      obtain ⟨s, hs⟩ := hExec (by simp [hex, Value.truthy])
      rw [hex] at hs
      cases hs

/-- C7 witness: the amended theorem applied to a concrete accepted match
specification exercising canonical, host, user, and exec. -/
theorem c7_header_order_amended_witness :
    headerLineOfMatch ⟨false, true, ["a", "b"], [], ["u"], [], .str "cmd"⟩
      = .ok ("Match " ++ String.intercalate " "
          (specMatchTokens ⟨false, true, ["a", "b"], [], ["u"], [], .str "cmd"⟩) ++ "\n") :=
  c7_header_order_amended ⟨false, true, ["a", "b"], [], ["u"], [], .str "cmd"⟩
    (by decide) (fun _ => ⟨"cmd", rfl⟩)

/-- Helper: bind on an ok Except value. -/
@[simp] theorem except_bind_ok {α β : Type} (a : α) (f : α → Except Err β) :
    (Except.ok a : Except Err α) >>= f = f a := rfl

/-- Helper: bind on an error Except value short-circuits. -/
@[simp] theorem except_bind_error {α β : Type} (e : Err) (f : α → Except Err β) :
    (Except.error e : Except Err α) >>= f = .error e := rfl

/-- C5 counterexample: the claim says any record whose keys are not all in
the valid set raises; a record whose first unknown key is the empty string
passes validation (the source tests the offending key with `if bad_key:`)
and is processed without error. -/
theorem c5_empty_key_cex :
    add_record idEngine ⟨[], []⟩ [("", .int 1)] = .ok ⟨[], []⟩
    ∧ recordValidKeys.contains "" = false :=
  ⟨rfl, rfl⟩

/-- C5 amended: add_record raises the invalid-attribute error naming the
first top-level key outside {config, host, match, merge, name, vars}
provided that key is non-empty; when every key is in the set the key
validation passes. -/
theorem c5_check_keys_amended (engine : Engine) (st : MakerState)
    (record : List (String × Value)) (k : String) :
    ((record.map Prod.fst).find? (fun x => !(recordValidKeys.contains x)) = some k → k ≠ "" →
      add_record engine st record = .error (.invalidAttr k))
    ∧ ((record.map Prod.fst).find? (fun x => !(recordValidKeys.contains x)) = none →
      check_record_keys record = .ok ()) := by
  constructor
  · intro hf hk
    have hc : check_record_keys record = .error (.invalidAttr k) := by
      rw [check_record_keys, hf]
      simp [hk]
    simp [add_record, resolveLayer, hc]
  · intro hf
    rw [check_record_keys, hf]

/-- C5 witness: a record with the unknown key zzz raises naming it, and a
record with only the valid key name passes the validation. -/
theorem c5_check_keys_amended_witness :
    add_record idEngine ⟨[], []⟩ [("zzz", .int 1)] = .error (.invalidAttr "zzz")
    ∧ check_record_keys [("name", .str "a")] = .ok () :=
  ⟨(c5_check_keys_amended idEngine ⟨[], []⟩ [("zzz", .int 1)] "zzz").1 (by decide) (by decide),
   (c5_check_keys_amended idEngine ⟨[], []⟩ [("name", .str "a")] "x").2 (by decide)⟩

/-- Helper: the emission test of add_record in terms of the resolved
selector fields. -/
theorem emitSelector_iff (L : Layer) :
    emitSelector L = true ↔
      ((∃ hs, L.host = some hs ∧ hs ≠ []) ∨ (∃ m, L.matchSpec = some m)) := by
  rw [emitSelector]
  cases hh : L.host with
  | none => cases hm : L.matchSpec <;> simp
  | some l => cases hm : L.matchSpec <;> cases l <;> simp

/-- Helper: a successful add_record appends exactly the resolved layer to
the emission sequence when its selector passes the truthiness test, and
nothing otherwise. -/
theorem add_record_entries (engine : Engine) (st : MakerState) (r : List (String × Value))
    (st2 : MakerState) (h : add_record engine st r = .ok st2) :
    ∃ L nm, resolveLayer engine st r = .ok (L, nm)
      ∧ st2.entries = st.entries ++ (if emitSelector L then [L] else []) := by
  cases hr : resolveLayer engine st r with
  | error e => rw [add_record, hr] at h; simp at h
  | ok p =>
    obtain ⟨L, nm⟩ := p
    refine ⟨L, nm, rfl, ?_⟩
    rw [add_record, hr] at h
    simp only [except_bind_ok] at h
    split at h
    · split at h
      · simp at h
      · simp at h
      · simp only [Except.ok.injEq] at h
        subst h
        cases hE : emitSelector L <;> simp [hE]
    · simp only [Except.ok.injEq] at h
      subst h
      cases hE : emitSelector L <;> simp [hE]

/-- C4 counterexample: the claim says a layer is emitted exactly when its
host or match resolved to non-null; a record whose host resolves to the
empty list resolves non-null yet is not emitted, because the source tests
`if host or match:` and an empty list is falsy. -/
theorem c4_empty_host_cex :
    resolveLayer idEngine ⟨[], []⟩ [("host", .list [])]
      = .ok (⟨CIDict.empty, [], some [], none⟩, .null)
    ∧ add_record idEngine ⟨[], []⟩ [("host", .list [])] = .ok ⟨[], []⟩ :=
  ⟨rfl, rfl⟩

/-- C4 amended: over any successful run, the emission sequence extends the
initial one by exactly the resolved layers whose host resolved to a
NON-EMPTY list or whose match resolved to non-null, in source order; layers
with neither selector (and those with an empty host list) never appear. -/
theorem c4_emission_amended (engine : Engine) (records : List (List (String × Value)))
    (st st2 : MakerState) (h : processRecords engine st records = .ok st2) :
    ∃ ls, resolvedLayers engine st records = .ok ls
      ∧ st2.entries = st.entries ++ ls.filter emitSelector
      ∧ ∀ L ∈ ls, (emitSelector L = true ↔
          ((∃ hs, L.host = some hs ∧ hs ≠ []) ∨ (∃ m, L.matchSpec = some m))) := by
  induction records generalizing st with
  | nil =>
    rw [processRecords] at h
    cases h
    exact ⟨[], rfl, by simp, by simp⟩
  | cons r rs ih =>
    rw [processRecords] at h
    cases ha : add_record engine st r with
    | error e => rw [ha] at h; simp at h
    | ok st1 =>
      rw [ha] at h
      simp only [except_bind_ok] at h
      obtain ⟨L, nm, hres, hent⟩ := add_record_entries engine st r st1 ha
      obtain ⟨ls, hls, hent2, hiff⟩ := ih st1 h
      refine ⟨L :: ls, ?_, ?_, ?_⟩
      · rw [resolvedLayers, hres, ha]
        simp [hls]
      · rw [hent2, hent, List.filter_cons]
        cases hE : emitSelector L <;> simp [hE, List.append_assoc]
      · intro L2 hL2
        rcases List.mem_cons.mp hL2 with hcase | hcase
        · subst hcase
          exact emitSelector_iff L2
        · exact hiff L2 hcase

/-- C4 witness: the amended theorem applied to a run of two records, a pure
template followed by a host record; only the host record is emitted. -/
theorem c4_emission_amended_witness :
    ∃ ls, resolvedLayers idEngine ⟨[], []⟩
        [[("name", .str "t")], [("host", .str "h")]] = .ok ls
      ∧ (⟨[(Value.str "t", ⟨CIDict.empty, [], none, none⟩)],
          [⟨CIDict.empty, [], some ["h"], none⟩]⟩ : MakerState).entries
          = (⟨[], []⟩ : MakerState).entries ++ ls.filter emitSelector
      ∧ ∀ L ∈ ls, (emitSelector L = true ↔
          ((∃ hs, L.host = some hs ∧ hs ≠ []) ∨ (∃ m, L.matchSpec = some m))) :=
  c4_emission_amended idEngine [[("name", .str "t")], [("host", .str "h")]]
    ⟨[], []⟩
    ⟨[(Value.str "t", ⟨CIDict.empty, [], none, none⟩)],
      [⟨CIDict.empty, [], some ["h"], none⟩]⟩ rfl

/-- C10 counterexample: the claim says header_line on an emitted layer
always returns a header string; a record whose match pairs all with host is
accepted by add_record and emitted, and header_line then raises the
all-token error instead of returning a header. -/
theorem c10_header_raise_cex :
    processRecords idEngine ⟨[], []⟩
        [[("match", .map [("all", .bool true), ("host", .str "x")])]]
      = .ok ⟨[], [⟨CIDict.empty, [], none, some ⟨true, false, ["x"], [], [], [], .null⟩⟩]⟩
    ∧ Layer.header_line ⟨CIDict.empty, [], none, some ⟨true, false, ["x"], [], [], [], .null⟩⟩
      = .error .allTokenMisplaced :=
  ⟨rfl, rfl⟩

/-- Helper: a layer with a non-empty host or a match specification never
reaches the no-header fall-through of header_line. -/
theorem header_line_ne_none (L : Layer)
    (hsel : (∃ hs, L.host = some hs ∧ hs ≠ []) ∨ (∃ m, L.matchSpec = some m)) :
    L.header_line ≠ .ok none := by
  rw [Layer.header_line]
  cases hh : L.host with
  | some l => simp
  | none =>
    rcases hsel with ⟨hs, hh2, _⟩ | ⟨m, hm⟩
    · rw [hh] at hh2
      cases hh2
    · rw [hm]
      cases hte : headerLineOfMatch m <;> simp [Except.map, hte]

/-- C10 amended: every layer of the emission sequence of a successful run
has a non-empty host list or a non-null match specification, so the
implicit no-header fall-through of header_line (returning nothing) is
unreachable on emitted layers; header_line there either returns a header
string or raises the all-token error. -/
theorem c10_emitted_header_amended (engine : Engine) (records : List (List (String × Value)))
    (st st2 : MakerState)
    (hinv : ∀ L ∈ st.entries,
      ((∃ hs, L.host = some hs ∧ hs ≠ []) ∨ (∃ m, L.matchSpec = some m)))
    (h : processRecords engine st records = .ok st2) :
    ∀ L ∈ st2.entries,
      ((∃ hs, L.host = some hs ∧ hs ≠ []) ∨ (∃ m, L.matchSpec = some m))
      ∧ L.header_line ≠ .ok none := by
  induction records generalizing st with
  | nil =>
    rw [processRecords] at h
    cases h
    exact fun L hL => ⟨hinv L hL, header_line_ne_none L (hinv L hL)⟩
  | cons r rs ih =>
    rw [processRecords] at h
    cases ha : add_record engine st r with
    | error e => rw [ha] at h; simp at h
    | ok st1 =>
      rw [ha] at h
      simp only [except_bind_ok] at h
      obtain ⟨L, nm, hres, hent⟩ := add_record_entries engine st r st1 ha
      apply ih st1 ?_ h
      intro L2 hL2
      rw [hent] at hL2
      rcases List.mem_append.mp hL2 with hc | hc
      · exact hinv L2 hc
      · cases hE : emitSelector L
        · rw [hE] at hc
          simp at hc
        · rw [hE] at hc
          simp at hc
          subst hc
          exact (emitSelector_iff L2).mp hE

/-- C10 witness: the amended theorem applied to a run emitting one host
layer. -/
theorem c10_emitted_header_amended_witness :
    ((∃ hs, (⟨CIDict.empty, [], some ["h"], none⟩ : Layer).host = some hs ∧ hs ≠ [])
      ∨ (∃ m, (⟨CIDict.empty, [], some ["h"], none⟩ : Layer).matchSpec = some m))
    ∧ Layer.header_line ⟨CIDict.empty, [], some ["h"], none⟩ ≠ .ok none :=
  c10_emitted_header_amended idEngine [[("host", .str "h")]] ⟨[], []⟩
    ⟨[], [⟨CIDict.empty, [], some ["h"], none⟩]⟩ (by simp) rfl
    ⟨CIDict.empty, [], some ["h"], none⟩ (by simp)

mutual

/-- Helper: yaml_str_list never raises the both-selectors error. -/
theorem yaml_str_list_not_both (v : Value) :
    yaml_str_list v ≠ .error Err.bothHostMatch := by
  cases v with
  | null => simp [yaml_str_list]
  | str s => simp [yaml_str_list]
  | map xs => simp [yaml_str_list]
  | bool b => simp [yaml_str_list]
  | int n => simp [yaml_str_list]
  | list xs =>
    rw [yaml_str_list]
    exact yamlStrListMany_not_both xs

/-- Helper: the list flattening of yaml_str_list never raises the
both-selectors error. -/
theorem yamlStrListMany_not_both (xs : List Value) :
    yamlStrListMany xs ≠ .error Err.bothHostMatch := by
  cases xs with
  | nil => simp [yamlStrListMany]
  | cons x rest =>
    rw [yamlStrListMany]
    cases hx : yaml_str_list x with
    | error e =>
      intro hc
      simp only [except_bind_error, Except.error.injEq] at hc
      exact yaml_str_list_not_both x (by rw [hx, hc])
    | ok a =>
      cases hr : yamlStrListMany rest with
      | error e =>
        intro hc
        simp only [except_bind_ok, hr, except_bind_error, Except.error.injEq] at hc
        exact yamlStrListMany_not_both rest (by rw [hr, hc])
      | ok b => simp [hx, hr]

end

mutual

/-- Helper: render errors come from the engine, so an engine that never
produces the both-selectors error keeps renderValue from producing it. -/
theorem renderValue_not_both (engine : Engine)
    (hE : ∀ s ctx, engine s ctx ≠ .error Err.bothHostMatch)
    (ctx : List (String × Value)) (v : Value) :
    renderValue engine ctx v ≠ .error Err.bothHostMatch := by
  cases v with
  | null => simp [renderValue]
  | bool b => simp [renderValue]
  | int n => simp [renderValue]
  | str s =>
    rw [renderValue]
    exact hE s ctx
  | list xs =>
    rw [renderValue]
    cases hx : renderValueList engine ctx xs with
    | error e =>
      intro hc
      simp only [hx, except_bind_error, Except.error.injEq] at hc
      exact renderValueList_not_both engine hE ctx xs (by rw [hx, hc])
    | ok ys => simp [hx]
  | map xs =>
    rw [renderValue]
    cases hx : renderValueMap engine ctx xs with
    | error e =>
      intro hc
      simp only [hx, except_bind_error, Except.error.injEq] at hc
      exact renderValueMap_not_both engine hE ctx xs (by rw [hx, hc])
    | ok ys => simp [hx]

/-- Helper: as renderValue_not_both, over a list node. -/
theorem renderValueList_not_both (engine : Engine)
    (hE : ∀ s ctx, engine s ctx ≠ .error Err.bothHostMatch)
    (ctx : List (String × Value)) (xs : List Value) :
    renderValueList engine ctx xs ≠ .error Err.bothHostMatch := by
  cases xs with
  | nil => simp [renderValueList]
  | cons x rest =>
    rw [renderValueList]
    cases hx : renderValue engine ctx x with
    | error e =>
      intro hc
      simp only [except_bind_error, Except.error.injEq] at hc
      exact renderValue_not_both engine hE ctx x (by rw [hx, hc])
    | ok y =>
      cases hr : renderValueList engine ctx rest with
      | error e =>
        intro hc
        simp only [except_bind_ok, hr, except_bind_error, Except.error.injEq] at hc
        exact renderValueList_not_both engine hE ctx rest (by rw [hr, hc])
      | ok ys => simp [hx, hr]

/-- Helper: as renderValue_not_both, over a mapping node. -/
theorem renderValueMap_not_both (engine : Engine)
    (hE : ∀ s ctx, engine s ctx ≠ .error Err.bothHostMatch)
    (ctx : List (String × Value)) (xs : List (String × Value)) :
    renderValueMap engine ctx xs ≠ .error Err.bothHostMatch := by
  cases xs with
  | nil => simp [renderValueMap]
  | cons x rest =>
    rw [renderValueMap]
    cases hx : renderValue engine ctx x.2 with
    | error e =>
      intro hc
      simp only [except_bind_error, Except.error.injEq] at hc
      exact renderValue_not_both engine hE ctx x.2 (by rw [hx, hc])
    | ok y =>
      cases hr : renderValueMap engine ctx rest with
      | error e =>
        intro hc
        simp only [except_bind_ok, hr, except_bind_error, Except.error.injEq] at hc
        exact renderValueMap_not_both engine hE ctx rest (by rw [hr, hc])
      | ok ys => simp [hx, hr]

end

/-- Helper: the merge overlay loop raises only key errors. -/
theorem mergeOverlay_not_both (o : CIDict) (b : List (String × Value)) :
    mergeOverlay o b ≠ .error Err.bothHostMatch := by
  induction b generalizing o with
  | nil => simp [mergeOverlay]
  | cons e rest ih =>
    obtain ⟨k, v⟩ := e
    rw [mergeOverlay]
    by_cases hv : v.isNull = true
    · simp only [hv, if_true]
      rw [CIDict.popNoDefault]
      by_cases hk : o.hasRawKey k = true
      · simp only [hk, if_true, except_bind_ok]
        exact ih _
      · simp [hk]
    · simp only [hv, if_false]
      exact ih _

/-- Helper: merge_config raises only key errors. -/
theorem merge_config_not_both (a b : List (String × Value)) :
    merge_config a b ≠ .error Err.bothHostMatch := by
  rw [merge_config]
  exact mergeOverlay_not_both _ b

/-- Helper: the merge-resolution loop never raises the both-selectors
error. -/
theorem resolveMergeLoop_not_both (reg : List (Value × Layer)) (ns : List String)
    (cfg : CIDict) (vars : List (String × Value)) :
    resolveMergeLoop reg ns cfg vars ≠ .error Err.bothHostMatch := by
  induction ns generalizing cfg vars with
  | nil => simp [resolveMergeLoop]
  | cons n rest ih =>
    rw [resolveMergeLoop]
    cases hn : regGet reg n with
    | none => simp
    | some L =>
      cases hm : merge_config cfg.items L.config.items with
      | error e =>
        intro hc
        simp only [hm, except_bind_error, Except.error.injEq] at hc
        exact merge_config_not_both cfg.items L.config.items (by rw [hm, hc])
      | ok cfg2 =>
        simp only [hm, except_bind_ok]
        exact ih _ _

/-- Helper: the vars stage never raises the both-selectors error when the
engine does not. -/
theorem varsStage_not_both (engine : Engine)
    (hE : ∀ s ctx, engine s ctx ≠ .error Err.bothHostMatch)
    (mv : List (String × Value)) (name rawVars : Value) :
    varsStage engine mv name rawVars ≠ .error Err.bothHostMatch := by
  rw [varsStage]
  by_cases ht : rawVars.truthy = true
  · simp only [ht, if_true]
    cases hr : renderValue engine (dictSet mv "name" name) rawVars with
    | error e =>
      intro hc
      simp only [except_bind_error, Except.error.injEq] at hc
      exact renderValue_not_both engine hE _ rawVars (by rw [hr, hc])
    | ok v => cases v <;> simp [hr]
  · simp [ht]

/-- Helper: the field coercion of normalize_match never raises the
both-selectors error. -/
theorem normalizeMatchFields_not_both (m : List (String × Value)) :
    normalizeMatchFields m ≠ .error Err.bothHostMatch := by
  rw [normalizeMatchFields]
  cases h1 : yaml_str_list (vGet m "host") with
  | error e =>
    intro hc
    simp only [except_bind_error, Except.error.injEq] at hc
    exact yaml_str_list_not_both _ (by rw [h1, hc])
  | ok l1 =>
    cases h2 : yaml_str_list (vGet m "originalhost") with
    | error e =>
      intro hc
      simp only [h1, except_bind_ok, except_bind_error, Except.error.injEq] at hc
      exact yaml_str_list_not_both _ (by rw [h2, hc])
    | ok l2 =>
      cases h3 : yaml_str_list (vGet m "user") with
      | error e =>
        intro hc
        simp only [h1, h2, except_bind_ok, except_bind_error, Except.error.injEq] at hc
        exact yaml_str_list_not_both _ (by rw [h3, hc])
      | ok l3 =>
        cases h4 : yaml_str_list (vGet m "localuser") with
        | error e =>
          intro hc
          simp only [h1, h2, h3, except_bind_ok, except_bind_error, Except.error.injEq] at hc
          exact yaml_str_list_not_both _ (by rw [h4, hc])
        | ok l4 => simp [h1, h2, h3, h4]

/-- Helper: normalize_match never raises the both-selectors error. -/
theorem normalize_match_not_both (v : Value) :
    normalize_match v ≠ .error Err.bothHostMatch := by
  cases v with
  | map m =>
    rw [normalize_match]
    cases hf : (m.map Prod.fst).find? (fun k => !(matchValidKeys.contains k)) with
    | none => exact normalizeMatchFields_not_both m
    | some k =>
      by_cases hk : k = ""
      · simp only [hk, if_true]
        exact normalizeMatchFields_not_both m
      · simp [hk]
  | null => simp [normalize_match]
  | bool b => simp [normalize_match]
  | int n => simp [normalize_match]
  | str s => simp [normalize_match]
  | list xs => simp [normalize_match]

/-- Helper: with at most one declared selector, the selector stage never
raises the both-selectors error (when the engine does not). -/
theorem selectorStage_not_both (engine : Engine)
    (hE : ∀ s ctx, engine s ctx ≠ .error Err.bothHostMatch)
    (mv : List (String × Value)) (name rawHost rawMatch : Value)
    (hsel : rawHost.isNull = true ∨ rawMatch.isNull = true) :
    selectorStage engine mv name rawHost rawMatch ≠ .error Err.bothHostMatch := by
  rw [selectorStage]
  by_cases hh : rawHost.isNull = true
  · simp only [hh, Bool.not_true, Bool.false_eq_true, if_false]
    by_cases hm : rawMatch.isNull = true
    · simp [hm]
    · simp only [Bool.not_eq_true] at hm
      simp only [hm, Bool.not_false, if_true]
      cases hr : renderValue engine (dictSet mv "name" name) rawMatch with
      | error e =>
        intro hc
        simp only [hr, except_bind_error, Except.error.injEq] at hc
        exact renderValue_not_both engine hE _ rawMatch (by rw [hr, hc])
      | ok v =>
        cases hn : normalize_match v with
        | error e =>
          intro hc
          simp only [hr, except_bind_ok, hn, except_bind_error, Except.error.injEq] at hc
          exact normalize_match_not_both v (by rw [hn, hc])
        | ok md => simp [hr, hn]
  · rcases hsel with hsel | hsel
    · exact absurd hsel hh
    · simp only [Bool.not_eq_true] at hh
      simp only [hh, Bool.not_false, if_true, hsel, Bool.not_true, Bool.false_eq_true, if_false]
      cases hr : renderValue engine (dictSet mv "name" name) rawHost with
      | error e =>
        intro hc
        simp only [hr, except_bind_error, Except.error.injEq] at hc
        exact renderValue_not_both engine hE _ rawHost (by rw [hr, hc])
      | ok v =>
        cases hy : yaml_str_list v with
        | error e =>
          intro hc
          simp only [hr, except_bind_ok, hy, except_bind_error, Except.error.injEq] at hc
          exact yaml_str_list_not_both v (by rw [hy, hc])
        | ok l => simp [hr, hy]

/-- Helper: the config stage never raises the both-selectors error (when
the engine does not). -/
theorem configStage_not_both (engine : Engine)
    (hE : ∀ s ctx, engine s ctx ≠ .error Err.bothHostMatch)
    (mc : CIDict) (mv : List (String × Value)) (name : Value)
    (host : Option (List String)) (mtch : Option MatchDict) (rawConfig : Value) :
    configStage engine mc mv name host mtch rawConfig ≠ .error Err.bothHostMatch := by
  rw [configStage]
  by_cases ht : rawConfig.truthy = true
  · simp only [ht, if_true]
    cases hr : renderValue engine
        (dictSet (dictSet (dictSet mv "name" name) "host" (hostCtxValue host))
          "match" (matchCtxValue mtch)) rawConfig with
    | error e =>
      intro hc
      simp only [hr, except_bind_error, Except.error.injEq] at hc
      exact renderValue_not_both engine hE _ rawConfig (by rw [hr, hc])
    | ok v =>
      cases v with
      | map xs =>
        intro hc
        simp only [hr, except_bind_ok] at hc
        exact merge_config_not_both mc.items xs hc
      | null => simp [hr]
      | bool b => simp [hr]
      | int n => simp [hr]
      | str s => simp [hr]
      | list xs => simp [hr]
  · simp [ht]

/-- Helper: the record key validation never raises the both-selectors
error. -/
theorem check_record_keys_not_both (record : List (String × Value)) :
    check_record_keys record ≠ .error Err.bothHostMatch := by
  rw [check_record_keys]
  cases hf : (record.map Prod.fst).find? (fun k => !(recordValidKeys.contains k)) with
  | none => simp
  | some k =>
    by_cases hk : k = ""
    · simp [hk]
    · simp [hk]

/-- Helper: with at most one declared selector and a benign engine, the
whole layer resolution never raises the both-selectors error. -/
theorem resolveLayer_not_both (engine : Engine) (st : MakerState)
    (record : List (String × Value))
    (hE : ∀ s ctx, engine s ctx ≠ .error Err.bothHostMatch)
    (hsel : (vGet record "host").isNull = true ∨ (vGet record "match").isNull = true) :
    resolveLayer engine st record ≠ .error Err.bothHostMatch := by
  rw [resolveLayer]
  cases hck : check_record_keys record with
  | error e =>
    intro hc
    simp only [hck, except_bind_error, Except.error.injEq] at hc
    exact check_record_keys_not_both record (by rw [hck, hc])
  | ok u =>
    cases u
    cases hy : yaml_str_list (vGet record "merge") with
    | error e =>
      intro hc
      simp only [hck, except_bind_ok, hy, except_bind_error, Except.error.injEq] at hc
      exact yaml_str_list_not_both _ (by rw [hy, hc])
    | ok ns =>
      cases hml : resolveMergeLoop st.registry ns CIDict.empty [] with
      | error e =>
        intro hc
        simp only [hck, hy, except_bind_ok, hml, except_bind_error, Except.error.injEq] at hc
        exact resolveMergeLoop_not_both st.registry ns CIDict.empty [] (by rw [hml, hc])
      | ok acc =>
        cases hvs : varsStage engine acc.2 (vGet record "name") (vGet record "vars") with
        | error e =>
          intro hc
          simp only [hck, hy, hml, except_bind_ok, hvs, except_bind_error,
            Except.error.injEq] at hc
          exact varsStage_not_both engine hE acc.2 _ _ (by rw [hvs, hc])
        | ok mv =>
          cases hss : selectorStage engine mv (vGet record "name") (vGet record "host")
              (vGet record "match") with
          | error e =>
            intro hc
            simp only [hck, hy, hml, hvs, except_bind_ok, hss, except_bind_error,
              Except.error.injEq] at hc
            exact selectorStage_not_both engine hE mv _ _ _ hsel (by rw [hss, hc])
          | ok sel =>
            cases hcs : configStage engine acc.1 mv (vGet record "name") sel.1 sel.2
                (vGet record "config") with
            | error e =>
              intro hc
              simp only [hck, hy, hml, hvs, hss, except_bind_ok, hcs, except_bind_error,
                Except.error.injEq] at hc
              exact configStage_not_both engine hE acc.1 mv _ sel.1 sel.2 _ (by rw [hcs, hc])
            | ok mc => simp [hck, hy, hml, hvs, hss, hcs]

/-- C9: a record declaring both host and match (both non-null) makes
add_record raise the prohibition error, assuming the preceding contract
steps (key validation, merge normalization and resolution, vars rendering)
succeed, which is the order the specification itself prescribes; and a
record declaring at most one selector is never rejected by this check (no
stage of add_record, under an engine that never produces this error itself,
raises the prohibition error). -/
theorem c9_host_match_exclusive (engine : Engine) (st : MakerState)
    (record : List (String × Value)) (ns : List String)
    (acc : CIDict × List (String × Value)) (mv : List (String × Value)) :
    ((check_record_keys record = .ok ()) →
     (yaml_str_list (vGet record "merge") = .ok ns) →
     (resolveMergeLoop st.registry ns CIDict.empty [] = .ok acc) →
     (varsStage engine acc.2 (vGet record "name") (vGet record "vars") = .ok mv) →
     (vGet record "host").isNull = false →
     (vGet record "match").isNull = false →
     add_record engine st record = .error Err.bothHostMatch)
    ∧ ((∀ s ctx, engine s ctx ≠ .error Err.bothHostMatch) →
       ((vGet record "host").isNull = true ∨ (vGet record "match").isNull = true) →
       add_record engine st record ≠ .error Err.bothHostMatch) := by
  constructor
  · intro hck hy hml hvs hh hm
    have hss : selectorStage engine mv (vGet record "name") (vGet record "host")
        (vGet record "match") = .error Err.bothHostMatch := by
      rw [selectorStage]
      simp [hh, hm]
    simp [add_record, resolveLayer, hck, hy, hml, hvs, hss]
  · intro hE hsel hc
    rw [add_record] at hc
    cases hres : resolveLayer engine st record with
    | error e =>
      rw [hres] at hc
      simp only [except_bind_error, Except.error.injEq] at hc
      exact resolveLayer_not_both engine st record hE hsel (by rw [hres, hc])
    | ok p =>
      rw [hres] at hc
      simp only [except_bind_ok] at hc
      split at hc
      · split at hc
        · simp at hc
        · simp at hc
        · simp at hc
      · simp at hc

/-- C9 witness: a record with both host and match raises the prohibition
error; a record with only host does not. -/
theorem c9_host_match_exclusive_witness :
    add_record idEngine ⟨[], []⟩ [("host", .str "h"), ("match", .map [])]
      = .error Err.bothHostMatch
    ∧ add_record idEngine ⟨[], []⟩ [("host", .str "h")] ≠ .error Err.bothHostMatch :=
  ⟨(c9_host_match_exclusive idEngine ⟨[], []⟩ [("host", .str "h"), ("match", .map [])]
      [] (CIDict.empty, []) []).1 rfl rfl rfl rfl rfl rfl,
   (c9_host_match_exclusive idEngine ⟨[], []⟩ [("host", .str "h")]
      [] (CIDict.empty, []) []).2 (fun s ctx => by simp [idEngine]) (Or.inr rfl)⟩

/-- Helper: the merge overlay loop succeeds whenever the overlay has no
None values (so merging configs taken from registry layers, which never
store None values, cannot hit the pop path). -/
theorem mergeOverlay_ok_of_no_null (o : CIDict) (b : List (String × Value))
    (hb : ∀ e ∈ b, e.2.isNull = false) : ∃ d, mergeOverlay o b = .ok d := by
  induction b generalizing o with
  | nil => exact ⟨o, rfl⟩
  | cons e rest ih =>
    obtain ⟨k, v⟩ := e
    have hv : v.isNull = false := hb (k, v) (List.mem_cons_self _ _)
    rw [mergeOverlay]
    simp only [hv, Bool.false_eq_true, if_false]
    exact ih (o.set k v) (fun e he => hb e (List.mem_cons_of_mem _ he))

/-- Helper: merge_config succeeds on a None-free overlay. -/
theorem merge_config_ok_of_no_null (a b : List (String × Value))
    (hb : ∀ e ∈ b, e.2.isNull = false) : ∃ d, merge_config a b = .ok d := by
  rw [merge_config]
  exact mergeOverlay_ok_of_no_null _ b hb

/-- Helper: the merge-resolution loop raises the undefined-record error
naming the first missing name, provided the names before it resolve to
layers with None-free configs. -/
theorem resolveMergeLoop_missing (reg : List (Value × Layer)) (ns1 : List String)
    (n : String) (ns2 : List String) (cfg : CIDict) (vars : List (String × Value))
    (h1 : ∀ m ∈ ns1, ∃ L, regGet reg m = some L ∧ ∀ e ∈ L.config.items, e.2.isNull = false)
    (h2 : regGet reg n = none) :
    resolveMergeLoop reg (ns1 ++ n :: ns2) cfg vars = .error (.undefinedRecord n) := by
  induction ns1 generalizing cfg vars with
  | nil =>
    rw [List.nil_append, resolveMergeLoop, h2]
  | cons m ms ih =>
    obtain ⟨L, hL, hclean⟩ := h1 m (List.mem_cons_self _ _)
    obtain ⟨d, hd⟩ := merge_config_ok_of_no_null cfg.items L.config.items hclean
    rw [List.cons_append, resolveMergeLoop, hL]
    simp only [hd, except_bind_ok]
    exact ih _ _ (fun x hx => h1 x (List.mem_cons_of_mem _ hx))

/-- Helper: appending one found name to the merge list composes as one more
merge_config fold on the configs and one more dict.update on the vars, so
later names win. -/
theorem resolveMergeLoop_snoc (reg : List (Value × Layer)) (ns : List String) (n : String)
    (L : Layer) (cfg : CIDict) (vars : List (String × Value))
    (hL : regGet reg n = some L) :
    resolveMergeLoop reg (ns ++ [n]) cfg vars = (do
      let acc ← resolveMergeLoop reg ns cfg vars
      let cfg2 ← merge_config acc.1.items L.config.items
      .ok (cfg2, dictUpdate acc.2 L.vars)) := by
  induction ns generalizing cfg vars with
  | nil =>
    simp only [List.nil_append, resolveMergeLoop, hL, except_bind_ok]
  | cons m ms ih =>
    simp only [List.cons_append, resolveMergeLoop]
    cases hm : regGet reg m with
    | none => simp
    | some Lm =>
      cases hmc : merge_config cfg.items Lm.config.items with
      | error e => simp [hmc]
      | ok cfg2 => simp [hmc, ih]

/-- C8: a record whose normalized merge list reaches a name absent from the
registry makes add_record raise the undefined-record error naming that
(first missing) name, given that key validation and merge normalization
succeeded and the names before it are present with None-free configs; and
for a present name, extending the merge list folds that layer's config
through the merge engine and its vars through plain dict overwrite, later
names winning. -/
theorem c8_merge_reference (engine : Engine) (st : MakerState)
    (record : List (String × Value)) (ns1 : List String) (n : String) (ns2 : List String)
    (cfg : CIDict) (vars : List (String × Value)) (L : Layer) :
    ((check_record_keys record = .ok ()) →
     (yaml_str_list (vGet record "merge") = .ok (ns1 ++ n :: ns2)) →
     (∀ m ∈ ns1, ∃ Lm, regGet st.registry m = some Lm
        ∧ ∀ e ∈ Lm.config.items, e.2.isNull = false) →
     (regGet st.registry n = none) →
     add_record engine st record = .error (.undefinedRecord n))
    ∧ (regGet st.registry n = some L →
       resolveMergeLoop st.registry (ns1 ++ [n]) cfg vars = (do
         let acc ← resolveMergeLoop st.registry ns1 cfg vars
         let cfg2 ← merge_config acc.1.items L.config.items
         .ok (cfg2, dictUpdate acc.2 L.vars))) := by
  constructor
  · intro hck hy h3 h4
    have hml := resolveMergeLoop_missing st.registry ns1 n ns2 CIDict.empty [] h3 h4
    simp [add_record, resolveLayer, hck, hy, hml]
  · intro hL
    exact resolveMergeLoop_snoc st.registry ns1 n L cfg vars hL

/-- C8 witness: with only the name base registered, merging base then ghost
raises the undefined-record error for ghost, and the snoc equation holds
for the present name base. -/
theorem c8_merge_reference_witness :
    add_record idEngine ⟨[(Value.str "base", ⟨CIDict.empty, [], none, none⟩)], []⟩
        [("merge", .list [.str "base", .str "ghost"])] = .error (.undefinedRecord "ghost")
    ∧ resolveMergeLoop [(Value.str "base", ⟨CIDict.empty, [], none, none⟩)]
        (["base"] ++ ["base"]) CIDict.empty [] = (do
          let acc ← resolveMergeLoop [(Value.str "base", ⟨CIDict.empty, [], none, none⟩)]
            ["base"] CIDict.empty []
          let cfg2 ← merge_config acc.1.items (⟨CIDict.empty, [], none, none⟩ : Layer).config.items
          .ok (cfg2, dictUpdate acc.2 (⟨CIDict.empty, [], none, none⟩ : Layer).vars)) :=
  ⟨(c8_merge_reference idEngine ⟨[(Value.str "base", ⟨CIDict.empty, [], none, none⟩)], []⟩
      [("merge", .list [.str "base", .str "ghost"])] ["base"] "ghost" []
      CIDict.empty [] ⟨CIDict.empty, [], none, none⟩).1 rfl rfl
      (by
        intro m hm
        simp only [List.mem_singleton] at hm
        subst hm
        exact ⟨⟨CIDict.empty, [], none, none⟩, rfl, by simp [CIDict.items, CIDict.empty]⟩)
      rfl,
   (c8_merge_reference idEngine ⟨[(Value.str "base", ⟨CIDict.empty, [], none, none⟩)], []⟩
      [("merge", .list [.str "base", .str "ghost"])] ["base"] "base" []
      CIDict.empty [] ⟨CIDict.empty, [], none, none⟩).2 rfl⟩
